import Mathlib

/-!
Verification of the bsdm-proxy request engine against its specification.

Shallow embedding of the Rust sources:
  * `src/proxy/src/icp.rs` — the sibling (ICP) wire codec;
  * `src/proxy/src/main.rs` — cache keying, admission, the HTTP handler
    branches, user extraction, and the certificate mint cache.

Bytes are modelled as `Nat` values below 256, byte strings as `List Nat`,
Rust `String`s as UTF-8 byte lists (with `String` used where the Rust code
compares text).  Machine arithmetic uses explicit `% 2 ^ w`.
-/

/-! ## UTF-8 (used by `String::from_utf8_lossy` in icp.rs and `String::from_utf8` in main.rs) -/

/-- A UTF-8 continuation byte (0x80–0xBF). -/
def isCont (b : Nat) : Bool := 128 ≤ b && b ≤ 191

/-- Count the leading continuation bytes of `bs`, up to `k` of them. -/
def countCont : Nat → List Nat → Nat
  | 0, _ => 0
  | _ + 1, [] => 0
  | k + 1, c :: r => if isCont c then countCont k r + 1 else 0

/-- Scan the continuation bytes of one multi-byte UTF-8 character whose lead
byte was already consumed: the first continuation must lie in `[lo, hi]` and
`k - 1` further continuations must follow.  Returns (bytes consumed including
the lead byte, was the character well-formed); on a malformed character the
consumed count is the maximal valid prefix, matching the `error_len` the Rust
standard library reports to `from_utf8_lossy`. -/
def scanMulti (lo hi k : Nat) (rest : List Nat) : Nat × Bool :=
  match rest with
  | [] => (1, false)
  | c1 :: rest1 =>
    if lo ≤ c1 && c1 ≤ hi then
      let m := countCont (k - 1) rest1
      if m = k - 1 then (k + 1, true) else (2 + m, false)
    else (1, false)

/-- Scan one UTF-8 character at the head of the list: bytes consumed and
validity, with malformed sequences consumed per maximal valid subpart. -/
def scan1 : List Nat → Nat × Bool
  | [] => (1, false)
  | b :: rest =>
    if b ≤ 127 then (1, true)
    else if 194 ≤ b && b ≤ 223 then scanMulti 128 191 1 rest
    else if b = 224 then scanMulti 160 191 2 rest
    else if 225 ≤ b && b ≤ 236 then scanMulti 128 191 2 rest
    else if b = 237 then scanMulti 128 159 2 rest
    else if 238 ≤ b && b ≤ 239 then scanMulti 128 191 2 rest
    else if b = 240 then scanMulti 144 191 3 rest
    else if 241 ≤ b && b ≤ 243 then scanMulti 128 191 3 rest
    else if b = 244 then scanMulti 128 143 3 rest
    else (1, false)

/-- UTF-8 bytes of U+FFFD, the replacement character. -/
def replacementBytes : List Nat := [239, 191, 189]

/-- Fuelled UTF-8 validity check (fuel bounds the number of characters;
`utf8Valid` supplies enough). -/
def utf8ValidFuel : Nat → List Nat → Bool
  | _, [] => true
  | 0, _ :: _ => false
  | fuel + 1, b :: rest =>
    let s := scan1 (b :: rest)
    s.2 && utf8ValidFuel fuel (List.drop s.1 (b :: rest))

/-- Whether a byte list is valid UTF-8 (the check `String::from_utf8` performs). -/
def utf8Valid (bs : List Nat) : Bool := utf8ValidFuel bs.length bs

/-- Fuelled lossy UTF-8 conversion. -/
def utf8LossyFuel : Nat → List Nat → List Nat
  | _, [] => []
  | 0, _ :: _ => []
  | fuel + 1, b :: rest =>
    let s := scan1 (b :: rest)
    (if s.2 then List.take s.1 (b :: rest) else replacementBytes)
      ++ utf8LossyFuel fuel (List.drop s.1 (b :: rest))

/-- Model of `String::from_utf8_lossy` on a byte list: each maximal invalid subpart is
replaced by U+FFFD. -/
def utf8Lossy (bs : List Nat) : List Nat := utf8LossyFuel bs.length bs

/-- UTF-8 encoding of one scalar value. -/
def utf8EncodeChar (c : Char) : List Nat :=
  let n := c.toNat
  if n < 128 then [n]
  else if n < 2048 then [192 + n / 64, 128 + n % 64]
  else if n < 65536 then [224 + n / 4096, 128 + n / 64 % 64, 128 + n % 64]
  else [240 + n / 262144, 128 + n / 4096 % 64, 128 + n / 64 % 64, 128 + n % 64]

/-- The UTF-8 bytes of a Lean string (Rust `str::as_bytes`). -/
def strUtf8 (s : String) : List Nat := s.data.flatMap utf8EncodeChar

/-- Every scan consumes at least one byte. -/
theorem scanMulti_fst_pos (lo hi k : Nat) (rest : List Nat) :
    1 ≤ (scanMulti lo hi k rest).1 := by
  unfold scanMulti
  cases rest with
  | nil => simp
  | cons c1 rest1 =>
    by_cases h : (lo ≤ c1 && c1 ≤ hi) = true
    · simp only [h, if_true]
      by_cases h2 : countCont (k - 1) rest1 = k - 1
      all_goals simp [h2]
      all_goals omega
    · simp [h]

/-- The scanner always consumes at least one byte. -/
theorem scan1_fst_pos (bs : List Nat) : 1 ≤ (scan1 bs).1 := by
  unfold scan1
  cases bs with
  | nil => simp
  | cons b rest =>
    by_cases h1 : b ≤ 127
    · simp [h1]
    · simp only [h1, if_false]
      repeat' split
      all_goals first
        | exact scanMulti_fst_pos _ _ _ _
        | simp

/-- On valid UTF-8 input the lossy conversion is the identity. -/
theorem utf8LossyFuel_of_valid :
    ∀ (fuel : Nat) (bs : List Nat), bs.length ≤ fuel →
      utf8ValidFuel fuel bs = true → utf8LossyFuel fuel bs = bs := by
  intro fuel
  induction fuel with
  | zero =>
    intro bs hlen _
    cases bs with
    | nil => rfl
    | cons b rest => simp at hlen
  | succ n ih =>
    intro bs hlen hvalid
    cases bs with
    | nil => rfl
    | cons b rest =>
      unfold utf8ValidFuel at hvalid
      unfold utf8LossyFuel
      simp only [Bool.and_eq_true] at hvalid
      obtain ⟨hok, hrest⟩ := hvalid
      simp only [hok, if_true]
      rw [ih (List.drop (scan1 (b :: rest)).1 (b :: rest)) ?_ hrest]
      · exact List.take_append_drop _ _
      · have hpos := scan1_fst_pos (b :: rest)
        have hd := List.length_drop (scan1 (b :: rest)).1 (b :: rest)
        have he : (b :: rest).length = rest.length + 1 := rfl
        omega

/-- The function `String::from_utf8_lossy` leaves valid UTF-8 untouched. -/
theorem utf8Lossy_of_valid (bs : List Nat) (h : utf8Valid bs = true) :
    utf8Lossy bs = bs :=
  utf8LossyFuel_of_valid bs.length bs (Nat.le_refl _) h

/-! ## ICP wire codec (`src/proxy/src/icp.rs`) -/

/-- ICP opcodes, `enum IcpOpcode` in icp.rs. -/
inductive IcpOpcode where
  | invalid
  | query
  | hit
  | miss
  | error
  | denied
deriving DecidableEq, Repr

/-- The `#[repr(u8)]` discriminant used by `self.opcode as u8` in `encode`. -/
def IcpOpcode.toByte : IcpOpcode → Nat
  | .invalid => 0
  | .query => 1
  | .hit => 2
  | .miss => 3
  | .error => 4
  | .denied => 22

/-- Model of `impl From<u8> for IcpOpcode` (icp.rs lines 35–46): 1, 2, 3, 4, 22 map to
the named opcodes and every other byte maps to `Invalid`. -/
def IcpOpcode.ofByte (b : Nat) : IcpOpcode :=
  if b = 1 then .query
  else if b = 2 then .hit
  else if b = 3 then .miss
  else if b = 4 then .error
  else if b = 22 then .denied
  else .invalid

/-- Model of `struct IcpMessage`.  The URL (a Rust `String`) is carried as its UTF-8
bytes; the requester socket address is abstracted to a `Nat` identifier (it is
never serialized — `decode` overwrites it with the datagram sender). -/
structure IcpMessage where
  opcode : IcpOpcode
  version : Nat
  request_number : Nat
  url : List Nat
  requester : Nat
deriving DecidableEq, Repr

/-- Model of `IcpMessage::encode` (icp.rs lines 106–125): a 20-byte big-endian header
— opcode, version, `url.len() as u16`, request number, and three zero u32
fields — followed, when the URL is non-empty, by the URL bytes and a single
0x00 terminator.  The Rust function returns `Result` but its body cannot
fail, so it is modelled as a total function. -/
def icpEncode (m : IcpMessage) : List Nat :=
  [m.opcode.toByte, m.version % 256,
   m.url.length / 256 % 256, m.url.length % 256,
   m.request_number / 16777216 % 256, m.request_number / 65536 % 256,
   m.request_number / 256 % 256, m.request_number % 256,
   0, 0, 0, 0, 0, 0, 0, 0, 0, 0, 0, 0]
  ++ (if m.url.isEmpty then [] else m.url ++ [0])

/-- Byte `i` of a datagram (`0` past the end; `decode` only reads bytes it has
checked to exist). -/
def byteAt (data : List Nat) (i : Nat) : Nat := data.getD i 0

/-- Trailing `'\0'` removal, `trim_end_matches('\0')` on the decoded string;
in valid UTF-8 the NUL character is exactly the 0x00 byte. -/
def trimTrailingZeros (bs : List Nat) : List Nat :=
  (bs.reverse.dropWhile (fun b => b == 0)).reverse

/-- Model of `IcpMessage::decode` (icp.rs lines 128–161): inputs shorter than 20 bytes
are rejected; otherwise the header fields are read big-endian, a version other
than 2 is only logged, and the URL is taken from the remainder when the
declared length is positive and fits, converted lossily and stripped of
trailing NULs, and is empty otherwise. -/
def icpDecode (data : List Nat) (sender : Nat) : Except String IcpMessage :=
  if data.length < 20 then Except.error "ICP message too short"
  else
    let url_len := byteAt data 2 * 256 + byteAt data 3
    let rest := data.drop 20
    Except.ok
      { opcode := IcpOpcode.ofByte (byteAt data 0)
        version := byteAt data 1
        request_number := byteAt data 4 * 16777216 + byteAt data 5 * 65536
          + byteAt data 6 * 256 + byteAt data 7
        url :=
          if 0 < url_len ∧ url_len ≤ rest.length then
            trimTrailingZeros (utf8Lossy (rest.take url_len))
          else []
        requester := sender }

/-- A well-formed sibling message: the URL is valid UTF-8 (automatic for a
Rust `String`) of at most 1000 bytes (the spec's encoding bound), does not end
in a NUL byte, and the numeric fields fit their wire widths. -/
def icpWellFormed (m : IcpMessage) : Prop :=
  (∀ b ∈ m.url, b < 256) ∧ utf8Valid m.url = true ∧ m.url.length ≤ 1000 ∧
    m.url.getLast? ≠ some 0 ∧ m.version < 256 ∧ m.request_number < 4294967296

instance (m : IcpMessage) : Decidable (icpWellFormed m) := by
  unfold icpWellFormed
  infer_instance

/-- Removing trailing zeros does nothing when the last byte is not zero. -/
theorem trimTrailingZeros_of_getLast (bs : List Nat) (h : bs.getLast? ≠ some 0) :
    trimTrailingZeros bs = bs := by
  unfold trimTrailingZeros
  cases hrev : bs.reverse with
  | nil =>
    have hnil : bs = [] := by
      have := congrArg List.reverse hrev
      simpa using this
    simp [hnil]
  | cons a t =>
    have ha : bs.getLast? = some a := by
      rw [← List.head?_reverse, hrev]; rfl
    have ha0 : (a == 0) = false := by
      rcases eq_or_ne a 0 with rfl | hne
      · exact absurd ha h
      · simp [hne]
    rw [List.dropWhile_cons_of_neg (by simp [ha0]), ← hrev, List.reverse_reverse]

/-- Decoding the encoded discriminant recovers the opcode. -/
theorem IcpOpcode.ofByte_toByte (op : IcpOpcode) : IcpOpcode.ofByte op.toByte = op := by
  cases op <;> rfl

/-- The encoded datagram is at least the 20-byte header. -/
theorem icpEncode_length_ge (m : IcpMessage) : 20 ≤ (icpEncode m).length := by
  unfold icpEncode
  rw [List.length_append]
  simp

/-- Claim C8 — sibling wire codec round trip: decoding an encoded well-formed
message recovers its opcode, version, request number, and URL (the requester
field is, by design, replaced with the datagram sender). -/
theorem icp_decode_encode_roundtrip (m : IcpMessage) (sender : Nat)
    (h : icpWellFormed m) :
    icpDecode (icpEncode m) sender =
      Except.ok { opcode := m.opcode, version := m.version,
                  request_number := m.request_number, url := m.url,
                  requester := sender } := by
  obtain ⟨op, ver, rn, url, rq⟩ := m
  obtain ⟨hbytes, hvalid, hlen, hlast, hver, hreq⟩ := h
  simp only [icpWellFormed] at *
  have hge : 20 ≤ (icpEncode ⟨op, ver, rn, url, rq⟩).length :=
    icpEncode_length_ge _
  have e0 : byteAt (icpEncode ⟨op, ver, rn, url, rq⟩) 0 = op.toByte := rfl
  have e1 : byteAt (icpEncode ⟨op, ver, rn, url, rq⟩) 1 = ver % 256 := rfl
  have e2 : byteAt (icpEncode ⟨op, ver, rn, url, rq⟩) 2 = url.length / 256 % 256 := rfl
  have e3 : byteAt (icpEncode ⟨op, ver, rn, url, rq⟩) 3 = url.length % 256 := rfl
  have e4 : byteAt (icpEncode ⟨op, ver, rn, url, rq⟩) 4 = rn / 16777216 % 256 := rfl
  have e5 : byteAt (icpEncode ⟨op, ver, rn, url, rq⟩) 5 = rn / 65536 % 256 := rfl
  have e6 : byteAt (icpEncode ⟨op, ver, rn, url, rq⟩) 6 = rn / 256 % 256 := rfl
  have e7 : byteAt (icpEncode ⟨op, ver, rn, url, rq⟩) 7 = rn % 256 := rfl
  have edrop : (icpEncode ⟨op, ver, rn, url, rq⟩).drop 20
      = (if url.isEmpty then [] else url ++ [0]) := rfl
  unfold icpDecode
  rw [if_neg (by omega)]
  rw [e0, e1, e2, e3, e4, e5, e6, e7, edrop]
  have hfield : url.length / 256 % 256 * 256 + url.length % 256 = url.length := by
    omega
  rw [hfield]
  simp only [Except.ok.injEq, IcpMessage.mk.injEq]
  refine ⟨IcpOpcode.ofByte_toByte op, Nat.mod_eq_of_lt hver, by omega, ?_, trivial⟩
  cases url with
  | nil => simp
  | cons u us =>
    have hne : ((u :: us).isEmpty) = false := rfl
    rw [hne]
    simp only [Bool.false_eq_true, if_false, List.length_cons]
    rw [if_pos (by constructor <;> simp)]
    have htake : List.take (us.length + 1) ((u :: us) ++ [0]) = u :: us := by
      have ht := List.take_left (u :: us) ([0] : List Nat)
      rwa [List.length_cons] at ht
    rw [htake, utf8Lossy_of_valid _ hvalid, trimTrailingZeros_of_getLast _ hlast]

/-- A concrete well-formed query, mirroring the `test_message_encoding` unit
test in icp.rs. -/
def icpQueryExample : IcpMessage :=
  { opcode := IcpOpcode.query, version := 2, request_number := 12345,
    url := strUtf8 "http://example.com/test", requester := 0 }

/-- Witness for C8: the round trip evaluated on the concrete query. -/
theorem icp_decode_encode_roundtrip_witness :
    icpDecode (icpEncode icpQueryExample) 9 =
      Except.ok { opcode := IcpOpcode.query, version := 2, request_number := 12345,
                  url := strUtf8 "http://example.com/test", requester := 9 } :=
  icp_decode_encode_roundtrip icpQueryExample 9 (by decide)

/-- The length-field bytes of an encoded message recombine to the URL length
mod 2^16. -/
theorem icpEncode_urlField (m : IcpMessage) :
    byteAt (icpEncode m) 2 * 256 + byteAt (icpEncode m) 3 = m.url.length % 65536 := by
  have e2 : byteAt (icpEncode m) 2 = m.url.length / 256 % 256 := rfl
  have e3 : byteAt (icpEncode m) 3 = m.url.length % 256 := rfl
  rw [e2, e3]
  omega

/-- The exact size of an encoded datagram. -/
theorem icpEncode_length_eq (m : IcpMessage) :
    (icpEncode m).length = (if m.url.isEmpty then 20 else 21 + m.url.length) := by
  unfold icpEncode
  rw [List.length_append]
  cases hu : m.url with
  | nil => simp
  | cons u us =>
    simp [List.length_append]
    omega

/-- Claim C7 (amended) — what `encode` actually emits: the 16-bit length field
holds the URL byte length excluding the trailing NUL, reduced mod 2^16, and
the datagram is 20 bytes for an empty URL and 21 + |url| bytes otherwise;
nothing bounds the size and no message is ever dropped. -/
theorem icpEncode_spec (m : IcpMessage) :
    byteAt (icpEncode m) 2 * 256 + byteAt (icpEncode m) 3 = m.url.length % 65536
    ∧ (icpEncode m).length = (if m.url.isEmpty then 20 else 21 + m.url.length) :=
  ⟨icpEncode_urlField m, icpEncode_length_eq m⟩

/-- The oversize query on which the spec's encoding invariants fail: its URL
is 1005 bytes long. -/
def icpOversizeExample : IcpMessage :=
  { opcode := IcpOpcode.query, version := 2, request_number := 1,
    url := List.replicate 1005 97, requester := 0 }

/-- Counterexample to C7 as stated: `encode` still produces a 1026-byte
datagram (greater than 1024) for a 1005-byte URL instead of dropping the
message, and its length field holds 1005, not the NUL-inclusive 1006. -/
theorem icpEncode_counterexample :
    (icpEncode icpOversizeExample).length = 1026
    ∧ ¬ (icpEncode icpOversizeExample).length ≤ 1024
    ∧ byteAt (icpEncode icpOversizeExample) 2 * 256
        + byteAt (icpEncode icpOversizeExample) 3 = 1005
    ∧ icpOversizeExample.url.length + 1 = 1006
    ∧ (1005 : Nat) ≠ 1006 := by
  have hul : icpOversizeExample.url.length = 1005 := List.length_replicate 1005 97
  have hlen : (icpEncode icpOversizeExample).length = 1026 := by
    rw [icpEncode_length_eq icpOversizeExample]
    have hne : icpOversizeExample.url.isEmpty = false := rfl
    rw [hne]
    simp [hul]
  have hfield : byteAt (icpEncode icpOversizeExample) 2 * 256
      + byteAt (icpEncode icpOversizeExample) 3 = 1005 := by
    rw [icpEncode_urlField icpOversizeExample, hul]
  refine ⟨hlen, by omega, hfield, by rw [hul], by decide⟩

/-- A 22-byte datagram whose 2-byte URL field is not valid UTF-8
(lead byte 0xFF followed by `a`). -/
def icpLossyExample : List Nat :=
  [1, 2, 0, 2, 0, 0, 0, 5, 0, 0, 0, 0, 0, 0, 0, 0, 0, 0, 0, 0, 255, 97]

/-- Claim C10 — decoding errors exactly on inputs shorter than 20 bytes; on
any longer input it succeeds: the opcode is the `From<u8>` image of byte 0
(hence `Invalid` for any byte outside 1, 2, 3, 4, 22), the URL is empty when
the declared length exceeds the bytes present, and URL bytes that are not
valid UTF-8 are converted lossily rather than rejected, as on the concrete
datagram `icpLossyExample`, whose URL decodes to U+FFFD followed by `a`. -/
theorem icpDecode_spec (data : List Nat) (sender : Nat) :
    ((icpDecode data sender).isOk = true ↔ 20 ≤ data.length)
    ∧ (∀ m, icpDecode data sender = Except.ok m →
        m.opcode = IcpOpcode.ofByte (byteAt data 0)
        ∧ (byteAt data 0 ≠ 1 → byteAt data 0 ≠ 2 → byteAt data 0 ≠ 3 →
            byteAt data 0 ≠ 4 → byteAt data 0 ≠ 22 → m.opcode = IcpOpcode.invalid)
        ∧ ((data.drop 20).length < byteAt data 2 * 256 + byteAt data 3 → m.url = []))
    ∧ icpDecode icpLossyExample 7 =
        Except.ok { opcode := IcpOpcode.query, version := 2, request_number := 5,
                    url := [239, 191, 189, 97], requester := 7 } := by
  refine ⟨?_, ?_, by rfl⟩
  · constructor
    · intro hk
      by_contra hlt
      have hlt2 : data.length < 20 := by omega
      unfold icpDecode at hk
      rw [if_pos hlt2] at hk
      exact Bool.noConfusion hk
    · intro hk
      unfold icpDecode
      rw [if_neg (by omega)]
      rfl
  · intro m hm
    unfold icpDecode at hm
    by_cases h : data.length < 20
    · rw [if_pos h] at hm
      exact absurd hm (by simp)
    · rw [if_neg h] at hm
      simp only [Except.ok.injEq] at hm
      subst hm
      refine ⟨rfl, ?_, ?_⟩
      · intro h1 h2 h3 h4 h22
        simp [IcpOpcode.ofByte, h1, h2, h3, h4, h22]
      · intro hover
        simp only
        rw [if_neg (by omega)]

/-- The message decoded from twenty zero bytes. -/
def icpZeroMessage : IcpMessage :=
  { opcode := IcpOpcode.invalid, version := 0, request_number := 0,
    url := [], requester := 3 }

/-- Witness for C10: on the all-zero 20-byte datagram, whose opcode byte 0 is
outside the defined set, decoding succeeds with the `Invalid` opcode. -/
theorem icpDecode_spec_witness : icpZeroMessage.opcode = IcpOpcode.invalid :=
  (((icpDecode_spec (List.replicate 20 0) 3).2.1 icpZeroMessage (by rfl)).2.1)
    (by decide) (by decide) (by decide) (by decide) (by decide)

/-! ## Proxy-credential extraction (`ProxyService::extract_user_info`, main.rs lines 257–272) -/

/-- Value of one base64 character in the standard alphabet. -/
def b64charVal (c : Char) : Option Nat :=
  if 65 ≤ c.toNat ∧ c.toNat ≤ 90 then some (c.toNat - 65)
  else if 97 ≤ c.toNat ∧ c.toNat ≤ 122 then some (c.toNat - 71)
  else if 48 ≤ c.toNat ∧ c.toNat ≤ 57 then some (c.toNat + 4)
  else if c = '+' then some 62
  else if c = '/' then some 63
  else none

/-- Decode the base64 quads; padding (`=`) may occur only in the final quad
and non-zero trailing bits are rejected, matching the checks done by
`base64::engine::general_purpose::STANDARD.decode`. -/
def b64quads : List Char → Option (List Nat)
  | [] => some []
  | a :: b :: c :: d :: rest =>
    match b64charVal a, b64charVal b with
    | some va, some vb =>
      if c = '=' then
        if d = '=' ∧ rest = [] ∧ vb % 16 = 0 then some [va * 4 + vb / 16] else none
      else
        match b64charVal c with
        | some vc =>
          if d = '=' then
            if rest = [] ∧ vc % 4 = 0 then
              some [va * 4 + vb / 16, vb % 16 * 16 + vc / 4]
            else none
          else
            match b64charVal d with
            | some vd =>
              (b64quads rest).map
                (fun t => (va * 4 + vb / 16) :: (vb % 16 * 16 + vc / 4) :: (vc % 4 * 64 + vd) :: t)
            | none => none
        | none => none
    | _, _ => none
  | _ => none

/-- Model of `general_purpose::STANDARD.decode`: canonical padding is required, so the
length must be a multiple of four. -/
def b64decode (cs : List Char) : Option (List Nat) :=
  if cs.length % 4 = 0 then b64quads cs else none

/-- ASCII lowercasing of a string, as characters. -/
def asciiLower (s : String) : List Char :=
  s.data.map (fun c => if 65 ≤ c.toNat ∧ c.toNat ≤ 90 then Char.ofNat (c.toNat + 32) else c)

/-- First lookup of a request header; hyper matches header names
case-insensitively (it stores them lowercase). -/
def headerGet (hs : List (String × String)) (nm : String) : Option String :=
  (hs.find? (fun p => asciiLower p.1 == asciiLower nm)).map (fun p => p.2)

/-- Strip a literal character sequence from the front of a list. -/
def dropLit : List Char → List Char → Option (List Char)
  | [], s => some s
  | _ :: _, [] => none
  | p :: ps, c :: cs => if c = p then dropLit ps cs else none

/-- Model of `auth_str.strip_prefix("Basic ")`. -/
def stripBasic (v : String) : Option (List Char) :=
  dropLit "Basic ".data v.data

/-- Split a byte string at its first `:` (`str::split_once`), returning the
parts before and after; `none` when no colon occurs. -/
def splitOnceColon : List Nat → Option (List Nat × List Nat)
  | [] => none
  | b :: rest =>
    if b = 58 then some ([], rest)
    else (splitOnceColon rest).map (fun p => (b :: p.1, p.2))

/-- Model of `ProxyService::extract_user_info` (main.rs lines 257–272): the engine
reads the request's `Authorization` header (hyper's `AUTHORIZATION` constant,
not `Proxy-Authorization`), strips the literal prefix `"Basic "`, decodes the
remainder as strict standard base64, requires the bytes to be valid UTF-8
(`String::from_utf8`), splits at the first `:`, and returns the left part as
both `user_id` and `username`; every failure yields `(None, None)`.  Header
values are modelled as strings because `to_str` succeeded on them; usernames
are returned as UTF-8 byte lists. -/
def extract_user_info (hs : List (String × String)) :
    Option (List Nat) × Option (List Nat) :=
  match headerGet hs "authorization" with
  | none => (none, none)
  | some v =>
    match stripBasic v with
    | none => (none, none)
    | some enc =>
      match b64decode enc with
      | none => (none, none)
      | some bytes =>
        if utf8Valid bytes then
          match splitOnceColon bytes with
          | some p => (some p.1, some p.1)
          | none => (none, none)
        else (none, none)

/-- Counterexample to C9 as stated: a request whose `Proxy-Authorization`
header carries `Basic dXNlcjpwYXNz` — which decodes cleanly to `user:pass` —
yields no username at all, because the code looks up the `Authorization`
header. -/
theorem extract_user_info_counterexample :
    b64decode "dXNlcjpwYXNz".data = some (strUtf8 "user:pass")
    ∧ extract_user_info [("proxy-authorization", "Basic dXNlcjpwYXNz")] = (none, none)
    ∧ (none : Option (List Nat)) ≠ some (strUtf8 "user") := by
  refine ⟨by decide, by decide, by decide⟩

/-- Claim C9 (amended) — the engine reads the `Authorization` header, not
`Proxy-Authorization`; when that header is absent both fields are `None`; when
it carries `Basic ` credentials that decode to UTF-8 containing a `:` both
fields hold the text left of the first `:` (as with `user:pass`); cleanly
decoding credentials without a colon still yield `None` (as with `user`). -/
theorem extract_user_info_spec (hs : List (String × String)) :
    (headerGet hs "authorization" = none → extract_user_info hs = (none, none))
    ∧ extract_user_info [("authorization", "Basic dXNlcjpwYXNz")]
        = (some (strUtf8 "user"), some (strUtf8 "user"))
    ∧ extract_user_info [("authorization", "Basic dXNlcg==")] = (none, none) := by
  refine ⟨?_, by decide, by decide⟩
  intro h
  unfold extract_user_info
  rw [h]

/-- Witness for C9 (amended): a request with no headers yields no username. -/
theorem extract_user_info_spec_witness :
    extract_user_info [] = (none, none) :=
  (extract_user_info_spec []).1 (by decide)

/-! ## Cache fingerprint (`ProxyService::generate_cache_key`, main.rs lines 233–240)

The key is `hex::encode(Sha256(method ++ ":" ++ url))`; SHA-256 is embedded
below (FIPS 180-4) over byte lists, with 32-bit words as `Nat` reduced
`% 4294967296`. -/

/-- Rotate a 32-bit word right by `n`. -/
def rotr32 (n x : Nat) : Nat := (x / 2 ^ n + x % 2 ^ n * 2 ^ (32 - n)) % 4294967296

/-- Big sigma-0. -/
def bsig0 (x : Nat) : Nat := rotr32 2 x ^^^ rotr32 13 x ^^^ rotr32 22 x

/-- Big sigma-1. -/
def bsig1 (x : Nat) : Nat := rotr32 6 x ^^^ rotr32 11 x ^^^ rotr32 25 x

/-- Small sigma-0. -/
def ssig0 (x : Nat) : Nat := rotr32 7 x ^^^ rotr32 18 x ^^^ x / 8

/-- Small sigma-1. -/
def ssig1 (x : Nat) : Nat := rotr32 17 x ^^^ rotr32 19 x ^^^ x / 1024

/-- The SHA-256 round constants. -/
def shaK : List Nat :=
  [1116352408, 1899447441, 3049323471, 3921009573, 961987163,
   1508970993, 2453635748, 2870763221, 3624381080, 310598401,
   607225278, 1426881987, 1925078388, 2162078206, 2614888103,
   3248222580, 3835390401, 4022224774, 264347078, 604807628,
   770255983, 1249150122, 1555081692, 1996064986, 2554220882,
   2821834349, 2952996808, 3210313671, 3336571891, 3584528711,
   113926993, 338241895, 666307205, 773529912, 1294757372,
   1396182291, 1695183700, 1986661051, 2177026350, 2456956037,
   2730485921, 2820302411, 3259730800, 3345764771, 3516065817,
   3600352804, 4094571909, 275423344, 430227734, 506948616,
   659060556, 883997877, 958139571, 1322822218, 1537002063,
   1747873779, 1955562222, 2024104815, 2227730452, 2361852424,
   2428436474, 2756734187, 3204031479, 3329325298]

/-- The eight working variables of the compression function. -/
structure Hash8 where
  a : Nat
  b : Nat
  c : Nat
  d : Nat
  e : Nat
  f : Nat
  g : Nat
  h : Nat
deriving DecidableEq, Repr

/-- The SHA-256 initial hash value. -/
def shaH0 : Hash8 :=
  { a := 1779033703, b := 3144134277,
    c := 1013904242, d := 2773480762,
    e := 1359893119, f := 2600822924,
    g := 528734635, h := 1541459225 }

/-- One SHA-256 round with schedule word `w` and constant `kc`. -/
def shaRound (kc w : Nat) (s : Hash8) : Hash8 :=
  let ch := (s.e &&& s.f) ^^^ ((s.e ^^^ 4294967295) &&& s.g)
  let t1 := (s.h + bsig1 s.e + ch + kc + w) % 4294967296
  let mj := (s.a &&& s.b) ^^^ (s.a &&& s.c) ^^^ (s.b &&& s.c)
  let t2 := (bsig0 s.a + mj) % 4294967296
  { a := (t1 + t2) % 4294967296, b := s.a, c := s.b, d := s.c,
    e := (s.d + t1) % 4294967296, f := s.e, g := s.f, h := s.g }

/-- Group bytes into big-endian 32-bit words. -/
def toWords : List Nat → List Nat
  | b0 :: b1 :: b2 :: b3 :: rest =>
    (b0 * 16777216 + b1 * 65536 + b2 * 256 + b3) :: toWords rest
  | _ => []

/-- Extend the 16 block words to the 64-entry message schedule. -/
def extendSchedule (ws : List Nat) : List Nat :=
  (List.range 48).foldl
    (fun acc _ =>
      let n := acc.length
      acc ++ [(ssig1 (acc.getD (n - 2) 0) + acc.getD (n - 7) 0
        + ssig0 (acc.getD (n - 15) 0) + acc.getD (n - 16) 0) % 4294967296])
    ws

/-- Compress one 64-byte block into the running hash. -/
def shaCompress (h0 : Hash8) (block : List Nat) : Hash8 :=
  let ws := extendSchedule (toWords block)
  let s := (List.range 64).foldl (fun s t => shaRound (shaK.getD t 0) (ws.getD t 0) s) h0
  { a := (h0.a + s.a) % 4294967296, b := (h0.b + s.b) % 4294967296,
    c := (h0.c + s.c) % 4294967296, d := (h0.d + s.d) % 4294967296,
    e := (h0.e + s.e) % 4294967296, f := (h0.f + s.f) % 4294967296,
    g := (h0.g + s.g) % 4294967296, h := (h0.h + s.h) % 4294967296 }

/-- The 8-byte big-endian bit-length trailer of the padding. -/
def len64be (n : Nat) : List Nat :=
  [n / 2 ^ 56 % 256, n / 2 ^ 48 % 256, n / 2 ^ 40 % 256, n / 2 ^ 32 % 256,
   n / 2 ^ 24 % 256, n / 2 ^ 16 % 256, n / 2 ^ 8 % 256, n % 256]

/-- SHA-256 padding: a 0x80 byte, zero fill, and the message bit length. -/
def sha256Pad (msg : List Nat) : List Nat :=
  msg ++ 128 :: List.replicate ((64 - (msg.length + 9) % 64) % 64) 0
    ++ len64be (8 * msg.length)

/-- Fold the padded message block by block (fuel is the byte count, ample
since every step consumes 64 bytes). -/
def sha256Go : Nat → Hash8 → List Nat → Hash8
  | _, h, [] => h
  | 0, h, _ :: _ => h
  | fuel + 1, h, b :: rest =>
    sha256Go fuel (shaCompress h ((b :: rest).take 64)) ((b :: rest).drop 64)

/-- Big-endian bytes of one 32-bit word. -/
def wordBytes (w : Nat) : List Nat :=
  [w / 16777216 % 256, w / 65536 % 256, w / 256 % 256, w % 256]

/-- The SHA-256 digest (32 bytes) of a byte list. -/
def sha256 (msg : List Nat) : List Nat :=
  let p := sha256Pad msg
  let hf := sha256Go p.length shaH0 p
  wordBytes hf.a ++ wordBytes hf.b ++ wordBytes hf.c ++ wordBytes hf.d
    ++ wordBytes hf.e ++ wordBytes hf.f ++ wordBytes hf.g ++ wordBytes hf.h

/-- Lowercase hex digit. -/
def hexDigit (n : Nat) : Char := Char.ofNat (if n < 10 then 48 + n else 87 + n)

/-- Model of `hex::encode` on a byte list. -/
def hexEncode (bs : List Nat) : String :=
  String.mk (bs.flatMap (fun b => [hexDigit (b / 16), hexDigit (b % 16)]))

/-- Model of `ProxyService::generate_cache_key` (main.rs lines 233–240): the hex-encoded
SHA-256 of `method`, a `:` separator, and `url` — the raw request method and
URI strings, with no normalization of any kind. -/
def generate_cache_key (method url : List Nat) : String :=
  hexEncode (sha256 (method ++ 58 :: url))

set_option maxRecDepth 100000

-- FIPS 180-4 test vector, checking the embedded SHA-256.
example : hexEncode (sha256 (strUtf8 "abc"))
    = "ba7816bf8f01cfea414140de5dae2223b00361a396177a9cb410ff61f20015ad" := by
  decide

/-- Requests whose URLs differ only in host case hash to different keys. -/
theorem cacheKey_case_ne :
    generate_cache_key (strUtf8 "GET") (strUtf8 "http://EXAMPLE.com/")
      ≠ generate_cache_key (strUtf8 "GET") (strUtf8 "http://example.com/") := by
  decide

/-- Requests whose URLs differ only in an explicit default port hash to
different keys. -/
theorem cacheKey_port_ne :
    generate_cache_key (strUtf8 "GET") (strUtf8 "http://example.com:80/")
      ≠ generate_cache_key (strUtf8 "GET") (strUtf8 "http://example.com/") := by
  decide

/-- Counterexample to C2 as stated: two requests whose URLs differ only in
host case (and two differing only in an explicit default port) receive
different fingerprints — `generate_cache_key` hashes the raw strings and
performs no normalization. -/
theorem generate_cache_key_counterexample :
    generate_cache_key (strUtf8 "GET") (strUtf8 "http://EXAMPLE.com/")
      ≠ generate_cache_key (strUtf8 "GET") (strUtf8 "http://example.com/")
    ∧ generate_cache_key (strUtf8 "GET") (strUtf8 "http://example.com:80/")
      ≠ generate_cache_key (strUtf8 "GET") (strUtf8 "http://example.com/") :=
  ⟨cacheKey_case_ne, cacheKey_port_ne⟩

/-- Claim C2 (amended) — the fingerprint is a deterministic pure function of
the raw request method and URL byte strings (the hex SHA-256 of
`method:url`), but no normalization is applied: URLs differing only in
scheme/host case or an explicit default port hash to different keys. -/
theorem generate_cache_key_spec (m1 u1 m2 u2 : List Nat)
    (hm : m1 = m2) (hu : u1 = u2) :
    generate_cache_key m1 u1 = generate_cache_key m2 u2
    ∧ generate_cache_key (strUtf8 "GET") (strUtf8 "http://EXAMPLE.com/")
      ≠ generate_cache_key (strUtf8 "GET") (strUtf8 "http://example.com/")
    ∧ generate_cache_key (strUtf8 "GET") (strUtf8 "http://example.com:80/")
      ≠ generate_cache_key (strUtf8 "GET") (strUtf8 "http://example.com/") := by
  refine ⟨by rw [hm, hu], cacheKey_case_ne, cacheKey_port_ne⟩

/-- Witness for C2 (amended): purity evaluated at equal concrete inputs. -/
theorem generate_cache_key_spec_witness :
    generate_cache_key (strUtf8 "GET") (strUtf8 "http://a/")
      = generate_cache_key (strUtf8 "GET") (strUtf8 "http://a/")
    ∧ generate_cache_key (strUtf8 "GET") (strUtf8 "http://EXAMPLE.com/")
      ≠ generate_cache_key (strUtf8 "GET") (strUtf8 "http://example.com/")
    ∧ generate_cache_key (strUtf8 "GET") (strUtf8 "http://example.com:80/")
      ≠ generate_cache_key (strUtf8 "GET") (strUtf8 "http://example.com/") :=
  generate_cache_key_spec (strUtf8 "GET") (strUtf8 "http://a/")
    (strUtf8 "GET") (strUtf8 "http://a/") rfl rfl

/-! ## Response cache and request engine (`src/proxy/src/main.rs`) -/

/-- Model of `CacheConfig` (main.rs lines 170–185). -/
structure CacheConfig where
  capacity : Nat
  default_ttl : Nat
  max_body_size : Nat
deriving DecidableEq, Repr

/-- The `Default` impl: 10 000 entries, 3600 s TTL, 10 MiB body cap. -/
def defaultCacheConfig : CacheConfig :=
  { capacity := 10000, default_ttl := 3600, max_body_size := 10485760 }

/-- Constant `CACHEABLE_METHODS` (main.rs line 32). -/
def CACHEABLE_METHODS : List String := ["GET", "HEAD"]

/-- Constant `CACHEABLE_STATUS_CODES` (main.rs line 33). -/
def CACHEABLE_STATUS_CODES : List Nat :=
  [200, 203, 204, 206, 300, 301, 404, 405, 410, 414, 501]

/-- Model of `struct CachedResponse` (main.rs lines 36–43); `cached_at` is a wall-clock
second count, `ttl` is in seconds. -/
structure CachedResponse where
  status : Nat
  headers : List (String × String)
  body : List Nat
  cached_at : Nat
  ttl : Nat
deriving DecidableEq, Repr

/-- Model of `CachedResponse::is_expired` (main.rs lines 46–51):
`duration_since` errs (treated as expired) when `now` precedes `cached_at`,
and otherwise the entry is expired when its age strictly exceeds the TTL. -/
def CachedResponse.is_expired (c : CachedResponse) (now : Nat) : Bool :=
  if now < c.cached_at then true else decide (c.ttl < now - c.cached_at)

/-- A response as written to the client. -/
structure ClientResponse where
  status : Nat
  headers : List (String × String)
  body : List Nat
deriving DecidableEq, Repr

/-- Model of `HeaderMap::insert`: replaces any existing value for the name. -/
def headerInsert (hs : List (String × String)) (nm v : String) :
    List (String × String) :=
  hs.filter (fun p => p.1 != nm) ++ [(nm, v)]

/-- Model of `CachedResponse::to_response` (main.rs lines 53–69): the stored status
(`StatusCode::from_u16` falls back to 200 outside 100–999), the stored
headers, and `x-cache-status: HIT` inserted last.  The stored names/values
came from a hyper `HeaderMap`, so their re-parse always succeeds and is
modelled as the identity. -/
def CachedResponse.to_response (c : CachedResponse) : ClientResponse :=
  { status := if 100 ≤ c.status && c.status ≤ 999 then c.status else 200,
    headers := headerInsert c.headers "x-cache-status" "HIT",
    body := c.body }

/-- Model of `ProxyService::is_cacheable` (main.rs lines 243–247). -/
def is_cacheable (cfg : CacheConfig) (method : String) (status : Nat)
    (body_size : Nat) : Bool :=
  CACHEABLE_METHODS.contains method && CACHEABLE_STATUS_CODES.contains status
    && decide (body_size ≤ cfg.max_body_size)

/-- Model of `quick_cache::sync::Cache::get` on an association list. -/
def cacheLookup (cache : List (String × CachedResponse)) (k : String) :
    Option CachedResponse :=
  (cache.find? (fun p => p.1 == k)).map (fun p => p.2)

/-- Model of `Cache::insert` (eviction is capacity-driven and irrelevant to the
claims; insertion replaces the key). -/
def cacheInsert (cache : List (String × CachedResponse)) (k : String)
    (v : CachedResponse) : List (String × CachedResponse) :=
  (k, v) :: cache.filter (fun p => p.1 != k)

/-- The observation record (`struct CacheEvent`, main.rs lines 146–167)
restricted to its claim-relevant fields; the wall-clock `timestamp` and
`request_duration_ms`, the URL-parsed `domain`, and the `headers` /
`content_type` / `user_agent` copies are elided. -/
structure CacheEvent where
  url : String
  method : String
  status : Nat
  cache_key : String
  cache_status : String
  user_id : Option (List Nat)
  username : Option (List Nat)
  client_ip : String
  response_size : Nat
deriving DecidableEq, Repr

/-- An upstream response after `BodyExt::collect`. -/
structure UpstreamResponse where
  status : Nat
  headers : List (String × String)
  body : List Nat
deriving DecidableEq, Repr

/-- The outcome of one `handle_request` invocation: the response written to
the client, the Kafka events scheduled, and the cache contents afterwards. -/
structure HandleResult where
  response : ClientResponse
  events : List CacheEvent
  cache : List (String × CachedResponse)
deriving DecidableEq, Repr

/-- The upstream half of `ProxyService::handle_request` (main.rs lines
342–415), reached on a cache miss: on `Ok(response)` the body is collected,
admission is decided by `is_cacheable`, an admitted response is inserted with
the configured TTL and the event says `MISS`, a refused one leaves the cache
unchanged with `BYPASS`, and the client response carries the upstream status,
headers, and body unchanged — no `x-cache-status` header is added.  On `Err`
(modelled as `none`) the client gets 502 with body `"502 Bad Gateway"` and no
event is produced. -/
def servedFromUpstream (cfg : CacheConfig) (cache : List (String × CachedResponse))
    (now : Nat) (method url client_ip : String)
    (ui : Option (List Nat) × Option (List Nat)) (cache_key : String)
    (upstream : Option UpstreamResponse) : HandleResult :=
  match upstream with
  | some up =>
    let cacheable := is_cacheable cfg method up.status up.body.length
    let cache2 :=
      if cacheable then
        cacheInsert cache cache_key
          { status := up.status, headers := up.headers, body := up.body,
            cached_at := now, ttl := cfg.default_ttl }
      else cache
    { response := { status := up.status, headers := up.headers, body := up.body },
      events := [{ url := url, method := method, status := up.status,
                   cache_key := cache_key,
                   cache_status := if cacheable then "MISS" else "BYPASS",
                   user_id := ui.1, username := ui.2, client_ip := client_ip,
                   response_size := up.body.length }],
      cache := cache2 }
  | none =>
    { response := { status := 502, headers := [], body := strUtf8 "502 Bad Gateway" },
      events := [],
      cache := cache }

/-- Model of `ProxyService::handle_request` (main.rs lines 293–416): compute the
fingerprint, serve an unexpired cached entry via `to_response` with a `HIT`
event, and otherwise fall through to the upstream path. -/
def handle_request (cfg : CacheConfig) (cache : List (String × CachedResponse))
    (now : Nat) (method url client_ip : String)
    (reqHeaders : List (String × String))
    (upstream : Option UpstreamResponse) : HandleResult :=
  let ui := extract_user_info reqHeaders
  let cache_key := generate_cache_key (strUtf8 method) (strUtf8 url)
  match cacheLookup cache cache_key with
  | some cached =>
    if cached.is_expired now then
      servedFromUpstream cfg cache now method url client_ip ui cache_key upstream
    else
      { response := cached.to_response,
        events := [{ url := url, method := method, status := cached.status,
                     cache_key := cache_key, cache_status := "HIT",
                     user_id := ui.1, username := ui.2, client_ip := client_ip,
                     response_size := cached.body.length }],
        cache := cache }
  | none => servedFromUpstream cfg cache now method url client_ip ui cache_key upstream

/-- The admission predicate in the claim's own terms. -/
theorem is_cacheable_iff (cfg : CacheConfig) (method : String) (status n : Nat) :
    is_cacheable cfg method status n = true
      ↔ ((method = "GET" ∨ method = "HEAD")
          ∧ status ∈ ([200, 203, 204, 206, 300, 301, 404, 405, 410, 414, 501] : List Nat)
          ∧ n ≤ cfg.max_body_size) := by
  unfold is_cacheable CACHEABLE_METHODS CACHEABLE_STATUS_CODES
  simp [Bool.and_eq_true, and_assoc]

/-- Claim C3 — an upstream response is admitted (event `MISS` and the entry
inserted under the fingerprint with the configured TTL) exactly when the
method is `GET` or `HEAD`, the status lies in the cacheable set, and the body
is within `max_body_size`; when any condition fails the event says `BYPASS`
(never `MISS`) and the cache is unchanged. -/
theorem admission_spec (cfg : CacheConfig) (cache : List (String × CachedResponse))
    (now : Nat) (method url client_ip : String)
    (ui : Option (List Nat) × Option (List Nat)) (key : String)
    (up : UpstreamResponse) :
    (((servedFromUpstream cfg cache now method url client_ip ui key
          (some up)).events.map CacheEvent.cache_status = ["MISS"]
        ∧ (servedFromUpstream cfg cache now method url client_ip ui key
            (some up)).cache
          = cacheInsert cache key
              { status := up.status, headers := up.headers, body := up.body,
                cached_at := now, ttl := cfg.default_ttl })
      ↔ ((method = "GET" ∨ method = "HEAD")
          ∧ up.status ∈ ([200, 203, 204, 206, 300, 301, 404, 405, 410, 414, 501] : List Nat)
          ∧ up.body.length ≤ cfg.max_body_size))
    ∧ (¬ ((method = "GET" ∨ method = "HEAD")
          ∧ up.status ∈ ([200, 203, 204, 206, 300, 301, 404, 405, 410, 414, 501] : List Nat)
          ∧ up.body.length ≤ cfg.max_body_size) →
        (servedFromUpstream cfg cache now method url client_ip ui key
          (some up)).events.map CacheEvent.cache_status = ["BYPASS"]
        ∧ (servedFromUpstream cfg cache now method url client_ip ui key
            (some up)).cache = cache) := by
  by_cases hc : is_cacheable cfg method up.status up.body.length = true
  · have hr := (is_cacheable_iff cfg method up.status up.body.length).mp hc
    constructor
    · simp only [servedFromUpstream, hc]
      simp only [List.map_cons, List.map_nil, if_true, and_self, true_and, true_iff]
      simpa using hr
    · intro hno
      exact absurd hr hno
  · have hb : ¬ is_cacheable cfg method up.status up.body.length = true := by
      simp [hc]
    have hr : ¬ ((method = "GET" ∨ method = "HEAD")
        ∧ up.status ∈ ([200, 203, 204, 206, 300, 301, 404, 405, 410, 414, 501] : List Nat)
        ∧ up.body.length ≤ cfg.max_body_size) :=
      fun hx => hb ((is_cacheable_iff cfg method up.status up.body.length).mpr hx)
    simp only [Bool.not_eq_true] at hc
    constructor
    · simp only [servedFromUpstream, hc]
      simp only [Bool.false_eq_true, if_false, List.map_cons, List.map_nil]
      constructor
      · intro hx
        simp at hx
      · intro hx
        exact absurd hx hr
    · intro _
      simp only [servedFromUpstream, hc]
      simp [Bool.false_eq_true]

/-- Witness for C3: a `POST` upstream response (the S2 scenario) is refused —
the event records `BYPASS` and the cache is untouched. -/
theorem admission_spec_witness :
    (servedFromUpstream defaultCacheConfig [] 0 "POST" "http://origin/a" "1.1.1.1"
        (none, none) "k" (some { status := 200, headers := [], body := [120] })).events.map
      CacheEvent.cache_status = ["BYPASS"]
    ∧ (servedFromUpstream defaultCacheConfig [] 0 "POST" "http://origin/a" "1.1.1.1"
        (none, none) "k" (some { status := 200, headers := [], body := [120] })).cache = [] :=
  (admission_spec defaultCacheConfig [] 0 "POST" "http://origin/a" "1.1.1.1"
    (none, none) "k" { status := 200, headers := [], body := [120] }).2 (by decide)

/-- Claim C4 (amended) — `x-cache-status: HIT` is inserted when serving an
unexpired cached entry, but a response served from upstream is written with
exactly the upstream headers — the engine never adds `x-cache-status: MISS`
or `BYPASS` to the client response (those values appear only in the
observation record), and the 502 error response carries no headers at all. -/
theorem cache_status_header_spec (cfg : CacheConfig)
    (cache : List (String × CachedResponse)) (now : Nat)
    (method url client_ip : String) (reqHeaders : List (String × String))
    (c : CachedResponse) (up : UpstreamResponse) :
    (cacheLookup cache (generate_cache_key (strUtf8 method) (strUtf8 url)) = some c →
      c.is_expired now = false →
      ∀ upstream, ("x-cache-status", "HIT")
        ∈ (handle_request cfg cache now method url client_ip reqHeaders
            upstream).response.headers)
    ∧ (cacheLookup cache (generate_cache_key (strUtf8 method) (strUtf8 url)) = none →
        (handle_request cfg cache now method url client_ip reqHeaders
            (some up)).response.headers = up.headers
        ∧ (handle_request cfg cache now method url client_ip reqHeaders
            none).response.headers = []) := by
  constructor
  · intro hsome hexp upstream
    simp only [handle_request]
    rw [hsome]
    simp [hexp, CachedResponse.to_response, headerInsert]
  · intro hmiss
    simp only [handle_request]
    rw [hmiss]
    exact ⟨rfl, rfl⟩

/-- A concrete unexpired cache entry (the S1 scenario response). -/
def s1CachedEntry : CachedResponse :=
  { status := 200, headers := [("content-type", "text/plain")],
    body := strUtf8 "hello", cached_at := 0, ttl := 3600 }

/-- Witness for C4 (amended): serving the S1 entry from cache yields a
response bearing `x-cache-status: HIT`. -/
theorem cache_status_header_spec_witness :
    ("x-cache-status", "HIT") ∈
      (handle_request defaultCacheConfig
        [(generate_cache_key (strUtf8 "GET") (strUtf8 "http://origin/a"), s1CachedEntry)]
        0 "GET" "http://origin/a" "1.1.1.1" [] none).response.headers :=
  ((cache_status_header_spec defaultCacheConfig
      [(generate_cache_key (strUtf8 "GET") (strUtf8 "http://origin/a"), s1CachedEntry)]
      0 "GET" "http://origin/a" "1.1.1.1" [] s1CachedEntry
      { status := 200, headers := [], body := [] }).1
    (by simp [cacheLookup]) (by decide) none)

/-- Counterexample to C4 as stated: an admitted upstream response (S1 first
fetch: `GET`, 200, 5-byte body) produces a `MISS` observation record, yet the
response written to the client carries exactly the upstream headers — no
`x-cache-status: MISS` header is set. -/
theorem cache_status_header_counterexample :
    (handle_request defaultCacheConfig [] 0 "GET" "http://origin/a" "1.2.3.4" []
        (some { status := 200, headers := [("content-type", "text/plain")],
                body := strUtf8 "hello" })).events.map CacheEvent.cache_status
      = ["MISS"]
    ∧ (handle_request defaultCacheConfig [] 0 "GET" "http://origin/a" "1.2.3.4" []
        (some { status := 200, headers := [("content-type", "text/plain")],
                body := strUtf8 "hello" })).response.headers
      = [("content-type", "text/plain")]
    ∧ ("x-cache-status", "MISS") ∉
      (handle_request defaultCacheConfig [] 0 "GET" "http://origin/a" "1.2.3.4" []
        (some { status := 200, headers := [("content-type", "text/plain")],
                body := strUtf8 "hello" })).response.headers := by
  refine ⟨by decide, by decide, by decide⟩

/-- Claim C5 (amended) — when the upstream fetch fails the engine returns 502
with the literal body `502 Bad Gateway` (not an empty body), leaves the cache
alone, and emits no observation record at all. -/
theorem upstream_error_spec (cfg : CacheConfig)
    (cache : List (String × CachedResponse)) (now : Nat)
    (method url client_ip : String)
    (ui : Option (List Nat) × Option (List Nat)) (key : String) :
    (servedFromUpstream cfg cache now method url client_ip ui key none).response.status = 502
    ∧ (servedFromUpstream cfg cache now method url client_ip ui key none).response.body
      = strUtf8 "502 Bad Gateway"
    ∧ strUtf8 "502 Bad Gateway" ≠ []
    ∧ (servedFromUpstream cfg cache now method url client_ip ui key none).events = []
    ∧ (servedFromUpstream cfg cache now method url client_ip ui key none).cache = cache := by
  refine ⟨rfl, rfl, by decide, rfl, rfl⟩

/-- Counterexample to C5 as stated: on a concrete failed fetch the body is
the 15-byte text `502 Bad Gateway`, not empty, and no observation record
(status 502, `BYPASS`, or otherwise) is emitted. -/
theorem upstream_error_counterexample :
    (handle_request defaultCacheConfig [] 0 "GET" "http://origin/a" "1.2.3.4" []
        none).response.status = 502
    ∧ (handle_request defaultCacheConfig [] 0 "GET" "http://origin/a" "1.2.3.4" []
        none).response.body = strUtf8 "502 Bad Gateway"
    ∧ (handle_request defaultCacheConfig [] 0 "GET" "http://origin/a" "1.2.3.4" []
        none).response.body ≠ []
    ∧ (handle_request defaultCacheConfig [] 0 "GET" "http://origin/a" "1.2.3.4" []
        none).events = [] := by
  refine ⟨by decide, by decide, by decide, by decide⟩

/-! ## Single flight (claim C1)

`handle_request` (main.rs lines 293–343) reads the cache at line 306 and, on a
miss, awaits its own `http_client.request` before inserting at line 371.
There is no per-key in-flight table, lock, or other single-flight state, so
the schedule in which N concurrent handlers all perform their lookups before
any insert happens is admissible; under it every handler observes the same
snapshot. -/

/-- Whether one handler that observed `snapshot` at its line-306 lookup
proceeds to issue an upstream fetch (1) or serves from cache (0). -/
def missPathFetches (snapshot : List (String × CachedResponse)) (now : Nat)
    (key : String) : Nat :=
  match cacheLookup snapshot key with
  | some c => if c.is_expired now then 1 else 0
  | none => 1

/-- Total upstream fetches issued by `n` concurrent requests for the same key
under the all-lookups-first schedule: each of the `n` handlers decides from
the same snapshot. -/
def concurrentUpstreamFetches (n : Nat) (snapshot : List (String × CachedResponse))
    (now : Nat) (key : String) : Nat :=
  (List.replicate n (missPathFetches snapshot now key)).sum

/-- Claim C1 evaluated on the code: two concurrent requests for the same
missing key each issue their own upstream fetch — the origin sees 2 requests,
not the single fetch the specification requires. -/
theorem single_flight_missing :
    concurrentUpstreamFetches 2 [] 0 "samekey" = 2 ∧ (2 : Nat) ≠ 1 := by
  refine ⟨by decide, by decide⟩

/-! ## Certificate mint cache (`CertCache::get_or_generate`, main.rs lines 112–141) -/

/-- Which private key signs a minted leaf certificate. -/
inductive SigningKey where
  | processCA
  | freshLeaf
deriving DecidableEq, Repr

/-- The certificate-shaped result of minting: the distinguished-name and SAN
parameters together with the key that signed the certificate. -/
structure MintedCert where
  cn : String
  org : String
  san : List String
  signedWith : SigningKey
deriving DecidableEq, Repr

/-- The minting step of `get_or_generate` (main.rs lines 124–140): fresh key pair,
`CertificateParams::new(vec![domain])` (SAN = [domain]), `CN = domain`,
organization `"BSDM Proxy"` — and then `params.self_signed(&key_pair)`: the
leaf is signed with its own freshly generated key; the stored `ca_key` is
never used to sign it. -/
def mintCert (domain : String) : MintedCert :=
  { cn := domain, org := "BSDM Proxy", san := [domain],
    signedWith := SigningKey.freshLeaf }

/-- Model of `CertCache::get_or_generate`: return the cached pair when present,
otherwise mint and insert. -/
def certGetOrGenerate (certs : List (String × MintedCert)) (domain : String) :
    MintedCert × List (String × MintedCert) :=
  match (certs.find? (fun p => p.1 == domain)).map (fun p => p.2) with
  | some c => (c, certs)
  | none => (mintCert domain, (domain, mintCert domain) :: certs)

/-- Claim C6 evaluated on the code (main.rs lines 112–141): minting for a hostname absent
from the cache produces a leaf with `CN = host` and organization
`"BSDM Proxy"`, but the certificate is signed with the leaf's own fresh key —
not with the process-wide CA key as the claim states. -/
theorem cert_mint_self_signed :
    (certGetOrGenerate [] "example.com").1.cn = "example.com"
    ∧ (certGetOrGenerate [] "example.com").1.org = "BSDM Proxy"
    ∧ (certGetOrGenerate [] "example.com").1.san = ["example.com"]
    ∧ (certGetOrGenerate [] "example.com").1.signedWith = SigningKey.freshLeaf
    ∧ SigningKey.freshLeaf ≠ SigningKey.processCA := by
  refine ⟨by decide, by decide, by decide, by decide, by decide⟩
